import Mathlib

/-!
Invoice-Manager: shallow embedding and verification.

A shallow embedding of the decision logic of the Invoice-Manager backend
(intent classification, JSON-recovery parsing, pattern extraction, the
conversation-memory store, dispatcher handlers and extracted-data cleaning),
with theorems settling the frozen claims C1-C10 about it.

Conventions of the embedding:
* JavaScript values flowing through the pipeline are modelled by the `Json`
  inductive below; JS numbers are modelled by the exact decimal type `DecNum`
  (exact where the code manipulates decimal numerals; binary floating-point
  rounding plays no role in any claim).  `NaN` is modelled by
  `Option DecNum = none` at the points where a coercion can produce it.
* A JS field that is absent (`undefined`) is `none`; a field holding JS
  `null` is `some Json.null`: the two are distinct, exactly as in JS.
* Fallible JS code (`JSON.parse`, `throw`) is modelled with `Option`/`Except`.
* Functions are written over `List Char` so that every concrete theorem can
  be settled by kernel evaluation.
-/

namespace InvoiceManager

/-! ## Character and string utilities -/

/-- ASCII decimal digit test (JS `\d`). -/
def isDig (c : Char) : Bool :=
  '0' ≤ c && c ≤ '9'

/-- Value of a decimal digit. -/
def digVal (c : Char) : Nat :=
  c.toNat - '0'.toNat

/-- Numeric value of a list of decimal digits. -/
def natOfDigits (cs : List Char) : Nat :=
  cs.foldl (fun acc c => acc * 10 + digVal c) 0

/-- Whitespace for JS `String.prototype.trim` and `Number` coercion
(the ASCII subset: space, tab, LF, CR, VT, FF; the exotic Unicode space
code points never occur in the strings this pipeline handles). -/
def jsWs (c : Char) : Bool :=
  c = ' ' || c = '\t' || c = '\n' || c = '\r' || c = '\x0b' || c = '\x0c'

/-- JSON-grammar whitespace (space, tab, LF, CR), as accepted by `JSON.parse`. -/
def jsonWs (c : Char) : Bool :=
  c = ' ' || c = '\t' || c = '\n' || c = '\r'

/-- Trim both ends of a character list (JS `trim`). -/
def trimChars (cs : List Char) : List Char :=
  ((cs.dropWhile jsWs).reverse.dropWhile jsWs).reverse

/-- Does `pat` occur at the head of `cs`? -/
def leadsWith : List Char → List Char → Bool
  | [], _ => true
  | _ :: _, [] => false
  | p :: ps, c :: cs => p = c && leadsWith ps cs

/-- Does `pat` occur anywhere inside `cs` (JS `includes`)? -/
def containsSeq (pat : List Char) : List Char → Bool
  | [] => leadsWith pat []
  | c :: cs => leadsWith pat (c :: cs) || containsSeq pat cs

/-- Lower-case every character (JS `toLowerCase`, ASCII letters). -/
def lowerChars (cs : List Char) : List Char :=
  cs.map Char.toLower

/-! ## Exact decimal numbers

The numbers this pipeline manipulates are decimal numerals (JSON numbers,
`$`-amount strings); we model a JS number value exactly as
`man / 10 ^ exp`.  The representation is kept normalized (trailing factors
of ten stripped from the mantissa), so structural equality of normalized
values coincides with numeric equality.  Binary floating-point rounding is
irrelevant to every claim (only signs, clamps and small literals matter), so
this exact model is faithful where it is used. -/

structure DecNum where
  man : Int
  exp : Nat
deriving Repr, DecidableEq

/-- `10 ^ n` on `Int`, by structural recursion (kernel-friendly). -/
def tenPow : Nat → Int
  | 0 => 1
  | n + 1 => 10 * tenPow n

/-- Strip factors of ten: `(m, e)` with `e > 0` and `10 ∣ m` becomes
`(m / 10, e - 1)`, repeatedly. -/
def stripTens : Int → Nat → Int × Nat
  | m, 0 => (m, 0)
  | m, e + 1 => if m % 10 = 0 then stripTens (m / 10) e else (m, e + 1)

/-- The normalized decimal `m / 10 ^ e`. -/
def mkDec (m : Int) (e : Nat) : DecNum :=
  ⟨(stripTens m e).1, (stripTens m e).2⟩

/-- The decimal value of an integer. -/
def decInt (m : Int) : DecNum := ⟨m, 0⟩

/-- Order on decimal values, by cross-multiplication. -/
def DecNum.lt (a b : DecNum) : Bool :=
  a.man * tenPow b.exp < b.man * tenPow a.exp

/-- The value assembled from a parsed numeral: optional minus sign, integer
digits `ip`, fraction digits `fd`, and a base-ten exponent `e`, i.e.
`±(ip.fd) * 10 ^ e`. -/
def decOfParts (neg : Bool) (ip fd : List Char) (e : Int) : DecNum :=
  let m : Int := natOfDigits (ip ++ fd)
  let m := if neg then -m else m
  let shift : Int := e - fd.length
  if 0 ≤ shift then mkDec (m * tenPow shift.toNat) 0
  else mkDec m (-shift).toNat

/-! ## The JSON value model

`Json` models the JavaScript values the pipeline manipulates (the output of
`JSON.parse` and the entity records built from it).  Object fields keep
insertion order; the parser below collapses duplicate keys exactly as a JS
object literal does (later assignment wins, original position kept). -/

inductive Json where
  | null
  | bool (b : Bool)
  | num (v : DecNum)
  | str (s : String)
  | arr (elems : List Json)
  | obj (fields : List (String × Json))
deriving Repr

mutual

/-- Structural equality on `Json` values. -/
def jsonBeq : Json → Json → Bool
  | .null, .null => true
  | .bool a, .bool b => a == b
  | .num a, .num b => a == b
  | .str a, .str b => a == b
  | .arr a, .arr b => jsonBeqList a b
  | .obj a, .obj b => jsonBeqFields a b
  | _, _ => false

def jsonBeqList : List Json → List Json → Bool
  | a :: as, b :: bs => jsonBeq a b && jsonBeqList as bs
  | [], [] => true
  | _, _ => false

def jsonBeqFields : List (String × Json) → List (String × Json) → Bool
  | f :: fs, g :: gs => f.1 == g.1 && jsonBeq f.2 g.2 && jsonBeqFields fs gs
  | [], [] => true
  | _, _ => false

end

mutual

theorem jsonBeq_iff_eq : ∀ a b : Json, jsonBeq a b = true ↔ a = b
  | .null, .null => by simp [jsonBeq]
  | .bool _, .bool _ => by simp [jsonBeq]
  | .num _, .num _ => by simp [jsonBeq]
  | .str _, .str _ => by simp [jsonBeq]
  | .arr x, .arr y => by simp [jsonBeq, jsonBeqList_iff_eq x y]
  | .obj x, .obj y => by simp [jsonBeq, jsonBeqFields_iff_eq x y]
  | .null, .bool _ | .null, .num _ | .null, .str _ | .null, .arr _ | .null, .obj _
  | .bool _, .null | .bool _, .num _ | .bool _, .str _ | .bool _, .arr _ | .bool _, .obj _
  | .num _, .null | .num _, .bool _ | .num _, .str _ | .num _, .arr _ | .num _, .obj _
  | .str _, .null | .str _, .bool _ | .str _, .num _ | .str _, .arr _ | .str _, .obj _
  | .arr _, .null | .arr _, .bool _ | .arr _, .num _ | .arr _, .str _ | .arr _, .obj _
  | .obj _, .null | .obj _, .bool _ | .obj _, .num _ | .obj _, .str _ | .obj _, .arr _ =>
    by simp [jsonBeq]

theorem jsonBeqList_iff_eq : ∀ xs ys : List Json, jsonBeqList xs ys = true ↔ xs = ys
  | a :: as, b :: bs => by
    simp [jsonBeqList, jsonBeq_iff_eq a b, jsonBeqList_iff_eq as bs]
  | [], [] => by simp [jsonBeqList]
  | [], _ :: _ => by simp [jsonBeqList]
  | _ :: _, [] => by simp [jsonBeqList]

theorem jsonBeqFields_iff_eq :
    ∀ xs ys : List (String × Json), jsonBeqFields xs ys = true ↔ xs = ys
  | ⟨ka, va⟩ :: fs, ⟨kb, vb⟩ :: gs => by
    simp [jsonBeqFields, jsonBeq_iff_eq va vb, jsonBeqFields_iff_eq fs gs, Prod.ext_iff,
      and_assoc]
  | [], [] => by simp [jsonBeqFields]
  | [], _ :: _ => by simp [jsonBeqFields]
  | _ :: _, [] => by simp [jsonBeqFields]

end

instance : DecidableEq Json :=
  fun a b => decidable_of_iff (jsonBeq a b = true) (jsonBeq_iff_eq a b)

/-- Field lookup on an object (`o.k`); `none` models JS `undefined`, which is
what a missing key or a field access on a non-object JSON value yields. -/
def jsGetField (j : Json) (k : String) : Option Json :=
  match j with
  | .obj fields => (fields.find? (fun p => p.1 = k)).map Prod.snd
  | _ => none

/-- Assignment `o[k] = v` on a field list: replaces the value in place when
the key exists, appends the key otherwise — JS object-key semantics. -/
def objSet (fields : List (String × Json)) (k : String) (v : Json) :
    List (String × Json) :=
  if fields.any (fun p => p.1 = k) then
    fields.map (fun p => if p.1 = k then (k, v) else p)
  else
    fields ++ [(k, v)]

/-! ## `JSON.parse`

A recursive-descent model of `JSON.parse` (ECMA-404 grammar, which
`JSON.parse` follows exactly): values are `null`/`true`/`false`, strings with
the standard escapes, numbers `-?(0|[1-9][0-9]*)(\.[0-9]+)?([eE][+-]?[0-9]+)?`,
arrays and objects.  A `\uXXXX` escape becomes the character with that code
point (lone surrogates, which `Char` cannot carry, degrade to `\x00`; no
claim involves them).  Recursion is by explicit fuel so every evaluation is
kernel-reducible; `jsonParse` hands the parser enough fuel for any input. -/

/-- Hexadecimal digit value (code points 0-9, a-f, A-F). -/
def hexVal (c : Char) : Option Nat :=
  let n := c.toNat
  if 48 ≤ n && n ≤ 57 then some (n - 48)
  else if 97 ≤ n && n ≤ 102 then some (n - 87)
  else if 65 ≤ n && n ≤ 70 then some (n - 55)
  else none

/-- Body of a JSON string literal, after the opening quote: returns the
decoded characters and the remainder after the closing quote. -/
def parseJsonStr : List Char → Option (List Char × List Char)
  | [] => none
  | '"' :: rest => some ([], rest)
  | '\\' :: '"' :: r => (parseJsonStr r).map (fun p => ('"' :: p.1, p.2))
  | '\\' :: '\\' :: r => (parseJsonStr r).map (fun p => ('\\' :: p.1, p.2))
  | '\\' :: '/' :: r => (parseJsonStr r).map (fun p => ('/' :: p.1, p.2))
  | '\\' :: 'b' :: r => (parseJsonStr r).map (fun p => ('\x08' :: p.1, p.2))
  | '\\' :: 'f' :: r => (parseJsonStr r).map (fun p => ('\x0c' :: p.1, p.2))
  | '\\' :: 'n' :: r => (parseJsonStr r).map (fun p => ('\n' :: p.1, p.2))
  | '\\' :: 'r' :: r => (parseJsonStr r).map (fun p => ('\r' :: p.1, p.2))
  | '\\' :: 't' :: r => (parseJsonStr r).map (fun p => ('\t' :: p.1, p.2))
  | '\\' :: 'u' :: a :: b :: c :: d :: r =>
    match hexVal a, hexVal b, hexVal c, hexVal d with
    | some ha, some hb, some hc, some hd =>
      let code := ((ha * 16 + hb) * 16 + hc) * 16 + hd
      (parseJsonStr r).map (fun p => (Char.ofNat code :: p.1, p.2))
    | _, _, _, _ => none
  | '\\' :: _ => none
  | c :: r =>
    if c.toNat < 0x20 then none
    else (parseJsonStr r).map (fun p => (c :: p.1, p.2))

/-- A JSON number token at the head of the input, with its value and the
remainder.  Leading zeros, a bare `.`/`e` and a trailing exponent marker are
rejected exactly as the JSON grammar does. -/
def parseJsonNumber (cs : List Char) : Option (Json × List Char) :=
  let (neg, cs1) := match cs with
    | '-' :: afterMinus => (true, afterMinus)
    | _ => (false, cs)
  let ip := cs1.takeWhile isDig
  if ip.isEmpty then none
  else if ip.length > 1 && ip.headD ' ' = '0' then none
  else
    let cs2 := cs1.drop ip.length
    let fracPart : Option (List Char × List Char) :=
      match cs2 with
      | '.' :: r =>
        let fd := r.takeWhile isDig
        if fd.isEmpty then none else some (fd, r.drop fd.length)
      | _ => some ([], cs2)
    match fracPart with
    | none => none
    | some (fd, cs3) =>
      let expPart : Option (Int × List Char) :=
        match cs3 with
        | 'e' :: r | 'E' :: r =>
          let signedTail : Int × List Char :=
            match r with
            | '+' :: more => (1, more)
            | '-' :: more => (-1, more)
            | _ => (1, r)
          let ed := signedTail.2.takeWhile isDig
          if ed.isEmpty then none
          else some (signedTail.1 * (natOfDigits ed : Int), signedTail.2.drop ed.length)
        | _ => some (0, cs3)
      match expPart with
      | none => none
      | some (e, cs4) => some (.num (decOfParts neg ip fd e), cs4)

mutual

/-- A JSON value at the head of the input (fuel-indexed). -/
def parseJsonValue : Nat → List Char → Option (Json × List Char)
  | 0, _ => none
  | fuel + 1, cs =>
    match cs.dropWhile jsonWs with
    | 'n' :: 'u' :: 'l' :: 'l' :: rest => some (.null, rest)
    | 't' :: 'r' :: 'u' :: 'e' :: rest => some (.bool true, rest)
    | 'f' :: 'a' :: 'l' :: 's' :: 'e' :: rest => some (.bool false, rest)
    | '"' :: rest =>
      match parseJsonStr rest with
      | some (s, r) => some (.str (String.mk s), r)
      | none => none
    | '[' :: rest =>
      (match rest.dropWhile jsonWs with
       | ']' :: r => some (.arr [], r)
       | _ =>
         match parseJsonElems fuel rest with
         | some (es, r) => some (.arr es, r)
         | none => none)
    | '{' :: rest =>
      (match rest.dropWhile jsonWs with
       | '}' :: r => some (.obj [], r)
       | _ =>
         match parseJsonFields fuel rest [] with
         | some (fs, r) => some (.obj fs, r)
         | none => none)
    | other => parseJsonNumber other

/-- A non-empty comma-separated element list, up to and including `]`. -/
def parseJsonElems : Nat → List Char → Option (List Json × List Char)
  | 0, _ => none
  | fuel + 1, cs =>
    match parseJsonValue fuel cs with
    | none => none
    | some (v, rest) =>
      match rest.dropWhile jsonWs with
      | ',' :: r =>
        match parseJsonElems fuel r with
        | some (es, r') => some (v :: es, r')
        | none => none
      | ']' :: r => some ([v], r)
      | _ => none

/-- A non-empty field list, up to and including `}`.  Duplicate keys are
collapsed with `objSet`, i.e. exactly as successive assignments on a JS
object: the later value wins, the original position is kept. -/
def parseJsonFields :
    Nat → List Char → List (String × Json) → Option (List (String × Json) × List Char)
  | 0, _, _ => none
  | fuel + 1, cs, acc =>
    match cs.dropWhile jsonWs with
    | '"' :: rest =>
      match parseJsonStr rest with
      | none => none
      | some (kChars, r1) =>
        match r1.dropWhile jsonWs with
        | ':' :: r2 =>
          (match parseJsonValue fuel r2 with
           | none => none
           | some (v, r3) =>
             let acc' := objSet acc (String.mk kChars) v
             match r3.dropWhile jsonWs with
             | ',' :: r4 => parseJsonFields fuel r4 acc'
             | '}' :: r4 => some (acc', r4)
             | _ => none)
        | _ => none
    | _ => none

end

/-- `JSON.parse`: parse the whole string, requiring only whitespace after the
value; `none` models a thrown `SyntaxError`. -/
def jsonParse (s : String) : Option Json :=
  let cs := s.data
  match parseJsonValue (cs.length + 1) cs with
  | some (v, rest) => if (rest.dropWhile jsonWs).isEmpty then some v else none
  | none => none

/-! ## JavaScript value semantics used by the pipeline -/

/-- JS truthiness of a JSON value (`!v` negated): `null`, `false`, `0`
and `""` are falsy; every array and object is truthy.  (`undefined` and
`NaN`, the remaining falsy JS values, are modelled by `Option` at their
use sites.) -/
def jsTruthy : Json → Bool
  | .null => false
  | .bool b => b
  | .num v => v.man != 0
  | .str s => !s.data.isEmpty
  | .arr _ => true
  | .obj _ => true

/-- Truthiness of a possibly-absent value (`none` = `undefined`, falsy). -/
def jsTruthyOpt : Option Json → Bool
  | none => false
  | some v => jsTruthy v

/-- A decimal numeral at the head of the input, JS-style (leading zeros
allowed, `"5."` and `".5"` allowed, optional exponent; an exponent marker
without digits is not consumed).  Shared core of the `Number` coercion and
`parseFloat`.  Hexadecimal forms and `Infinity`, which no string reaching
these call sites exhibits, are not modelled. -/
def parseDec (cs : List Char) : Option (DecNum × List Char) :=
  let (neg, cs1) := match cs with
    | '-' :: r => (true, r)
    | '+' :: r => (false, r)
    | _ => (false, cs)
  let ip := cs1.takeWhile isDig
  let cs2 := cs1.drop ip.length
  let (fd, cs3) := match cs2 with
    | '.' :: r => (r.takeWhile isDig, r.drop (r.takeWhile isDig).length)
    | _ => ([], cs2)
  if ip.isEmpty && fd.isEmpty then none
  else
    let (e, cs4) := match cs3 with
      | c :: r =>
        if c = 'e' || c = 'E' then
          let expSign : Int := if r.headD ' ' = '-' then -1 else 1
          let afterSign := if r.headD ' ' = '-' || r.headD ' ' = '+' then r.tail else r
          let ed := afterSign.takeWhile isDig
          if ed.isEmpty then ((0 : Int), cs3)
          else (expSign * (natOfDigits ed : Int), afterSign.drop ed.length)
        else ((0 : Int), cs3)
      | [] => ((0 : Int), cs3)
    some (decOfParts neg ip fd e, cs4)

/-- JS `Number(string)`: trim, empty means `0`, otherwise the whole string
must be a numeral; `none` models `NaN`. -/
def jsNumberCoerce (s : String) : Option DecNum :=
  let cs := trimChars s.data
  if cs.isEmpty then some (decInt 0)
  else
    match parseDec cs with
    | some (v, rest) => if rest.isEmpty then some v else none
    | none => none

/-- JS `parseFloat(string)`: longest numeral at the head after leading
whitespace; `none` models `NaN`. -/
def jsParseFloatStr (s : String) : Option DecNum :=
  match parseDec (s.data.dropWhile jsWs) with
  | some (v, _) => some v
  | none => none

/-- JS `ToNumber` of a JSON value, as invoked by a relational comparison
such as `data.amount > 0`: numbers are themselves, `null` is `0`, booleans
are `0`/`1`, strings go through `Number(·)`, and arrays coerce through
their string image (`[]` is `0`, a one-element array coerces as its
element's string, anything else contains a comma and is `NaN`); objects
are `NaN`. -/
def jsToNumber : Json → Option DecNum
  | .null => some (decInt 0)
  | .bool b => some (decInt (if b then 1 else 0))
  | .num v => some v
  | .str s => jsNumberCoerce s
  | .arr [] => some (decInt 0)
  | .arr [v] =>
    match v with
    | .bool _ => none
    | .obj _ => none
    | w => jsToNumber w
  | .arr _ => none
  | .obj _ => none

/-- JS `parseFloat(v)` on a JSON value: the argument is first coerced to a
string, so a number is returned unchanged (string round-trip), a string is
prefix-parsed, and an array parses through its first element (the comma the
join inserts cannot extend a numeral); everything else stringifies to a
non-numeral, i.e. `NaN`. -/
def jsParseFloatJson : Json → Option DecNum
  | .num v => some v
  | .str s => jsParseFloatStr s
  | .arr (v :: _) =>
    match v with
    | .bool _ => none
    | .obj _ => none
    | .null => none
    | w => jsParseFloatJson w
  | _ => none

/-- JS `v > bound` with a number on the right (`undefined`, i.e. an absent
value, compares false). -/
def jsGtNum (v : Option Json) (bound : DecNum) : Bool :=
  match v with
  | none => false
  | some w =>
    match jsToNumber w with
    | some x => DecNum.lt bound x
    | none => false

/-- JS `v < bound` with a number on the right. -/
def jsLtNum (v : Option Json) (bound : DecNum) : Bool :=
  match v with
  | none => false
  | some w =>
    match jsToNumber w with
    | some x => DecNum.lt x bound
    | none => false

/-! ## The response parser (`parseGeminiResponse`, `extractValidJson`) -/

/-- `replace(/^PAT\s*/, '')` after a `startsWith PAT` guard: drop the
pattern and the whitespace after it. -/
def stripFenceLead (pat cs : List Char) : List Char :=
  (cs.drop pat.length).dropWhile jsWs

/-- `replace(/\s*```$/, '')`: when the string ends in three backticks,
remove them and the whitespace run just before them; otherwise unchanged. -/
def stripFenceTail (cs : List Char) : List Char :=
  let r := cs.reverse
  if leadsWith ['`', '`', '`'] r then ((r.drop 3).dropWhile jsWs).reverse else cs

/-- `parseGeminiResponse` (langchainService.js:19): trim, strip a leading
```` ```json ```` or ```` ``` ```` fence and a trailing fence, then
`JSON.parse`; `none` models the re-thrown parse error. -/
def parseGeminiResponse (response : String) : Option Json :=
  let cleaned := trimChars response.data
  let cleaned :=
    if leadsWith "```json".data cleaned then
      stripFenceTail (stripFenceLead "```json".data cleaned)
    else if leadsWith "```".data cleaned then
      stripFenceTail (stripFenceLead "```".data cleaned)
    else cleaned
  jsonParse (String.mk (trimChars cleaned))

/-- The character scan inside `extractValidJson` (langchainService.js:302):
starting at the first `{`, walk the characters tracking escape state, string
state and brace depth, and return the substring up to the `}` that returns
the depth to zero.  A backslash sets the escape flag wherever it occurs, the
escaped character is skipped entirely, and braces count only outside
strings — exactly the JS loop. -/
def findBalanced : List Char → Nat → Bool → Bool → List Char → Option (List Char)
  | [], _, _, _, _ => none
  | c :: rest, depth, inStr, esc, acc =>
    if esc then findBalanced rest depth inStr false (acc ++ [c])
    else if c = '\\' then findBalanced rest depth inStr true (acc ++ [c])
    else if c = '"' then findBalanced rest depth (!inStr) false (acc ++ [c])
    else if !inStr && c = '{' then findBalanced rest (depth + 1) inStr false (acc ++ [c])
    else if !inStr && c = '}' then
      if depth = 1 then some (acc ++ [c])
      else findBalanced rest (depth - 1) inStr false (acc ++ [c])
    else findBalanced rest depth inStr false (acc ++ [c])

/-- `indexOf('{')`: the suffix of the input starting at the first `{`. -/
def dropUntilBrace : List Char → Option (List Char)
  | [] => none
  | '{' :: r => some ('{' :: r)
  | _ :: r => dropUntilBrace r

/-- `extractValidJson` (langchainService.js:286): try `JSON.parse` on the
whole string; on failure, trim, find the first `{`, scan for the balanced
object and `JSON.parse` that substring; `none` wherever the JS returns
`null`. -/
def extractValidJson (s : String) : Option Json :=
  match jsonParse s with
  | some v => some v
  | none =>
    let trimmed := trimChars s.data
    match dropUntilBrace trimmed with
    | none => none
    | some tailCs =>
      match findBalanced tailCs 0 false false [] with
      | none => none
      | some sub => jsonParse (String.mk sub)

/-! ## The intent classifier (`detectIntent`) -/

/-- One call's worth of behaviour of the LLM collaborator: the chain
invocation either resolves with raw text (possibly malformed) or rejects
with an error (network, auth, quota, …). -/
inductive LLMBehaviour where
  | success (raw : String)
  | failure (errMsg : String)

/-- Does a keyword list hit the lower-cased message? -/
def msgHasAny (message : String) (kws : List String) : Bool :=
  kws.any (fun k => containsSeq k.data (lowerChars message.data))

/-- Modelled from the spec: `detectIntentFallback` is called from
`detectIntent` (langchainService.js:198,239) but its definition is not
among the source files; spec §4.2 step 4 specifies it: deterministic
keyword matching over the intent keyword sets, first matching set wins,
confidence fixed at 0.5, `entities = {}`, `GENERAL_INQUIRY` when no set
matches. -/
def detectIntentFallback (message : String) : Json :=
  let intent :=
    if msgHasAny message ["invoice", "bill", "charge"] then "CREATE_INVOICE"
    else if msgHasAny message ["transaction", "expense", "spent", "received", "paid"] then
      "RECORD_TRANSACTION"
    else if msgHasAny message ["balance", "summary", "report", "overview"] then
      "GENERATE_BALANCE_SHEET"
    else "GENERAL_INQUIRY"
  .obj [("intent", .str intent), ("confidence", .num (mkDec 5 1)), ("entities", .obj [])]

/-- The structural validation `detectIntent` applies to a parsed response
(langchainService.js:215): `intent`, `confidence` and `entities` must all
be truthy, otherwise the code throws (and so falls back). -/
def intentResponseUsable (j : Json) : Bool :=
  jsTruthyOpt (jsGetField j "intent") && jsTruthyOpt (jsGetField j "confidence") &&
    jsTruthyOpt (jsGetField j "entities")

/-- `detectIntent` (langchainService.js:191), as a function of the
process-wide connection flag (`none` = still unknown, `some false` =
marked unavailable), the LLM collaborator's behaviour for this call, and
the message.  The embedding returns the value the `async` function
resolves with; the function never rejects because every throw inside the
`try` lands in the `catch`, which returns `detectIntentFallback message`.
(The catch also flips the connection flag on matching error text and the
success path appends to conversation memory; those effects do not touch
the resolved value, which is what the claim is about.) -/
def detectIntent (connectionWorking : Option Bool) (llm : LLMBehaviour)
    (message : String) : Json :=
  if connectionWorking = some false then detectIntentFallback message
  else
    match llm with
    | .failure _ => detectIntentFallback message
    | .success raw =>
      match parseGeminiResponse raw with
      | none => detectIntentFallback message
      | some parsed =>
        if intentResponseUsable parsed then parsed else detectIntentFallback message

/-- The LLM/parse outcome the claim's failure condition describes: the call
rejected, or its raw output did not survive `parseGeminiResponse` plus the
structural validation. -/
def llmOutputUsable : LLMBehaviour → Bool
  | .failure _ => false
  | .success raw =>
    match parseGeminiResponse raw with
    | none => false
    | some parsed => intentResponseUsable parsed

/-! ## The conversation memory store

`conversationMemory` is a `Map` from the string `` `${userId}-${conversationId}` ``
to an entry array.  Every reader goes through `get(key) || []`, so the map
is observationally a total function from keys to lists, which is how we
model it (`delete` becomes "set to `[]`").  An entry's payload fields
beyond its `type` tag are irrelevant to every claim; we carry them as one
`Json` value plus the timestamp the code attaches. -/

structure MemEntry where
  type : String
  data : Json
  timestamp : Nat
deriving Repr, DecidableEq

def MemStore := String → List MemEntry

/-- `` `${userId}-${conversationId}` `` (langchainService.js:413 et al.). -/
def memKey (userId conversationId : String) : String :=
  userId ++ "-" ++ conversationId

def memEmpty : MemStore := fun _ => []

/-- `conversationMemory.set(key, value)`. -/
def memSet (m : MemStore) (k : String) (v : List MemEntry) : MemStore :=
  fun k' => if k' = k then v else m k'

/-- `addToConversationMemory` (langchainService.js:412): push the item, then
keep only the last 20 entries. -/
def addToConversationMemory (userId conversationId : String) (item : MemEntry)
    (m : MemStore) : MemStore :=
  let key := memKey userId conversationId
  let memory := m key ++ [item]
  let memory := if memory.length > 20 then memory.drop (memory.length - 20) else memory
  memSet m key memory

/-- `clearConversationMemory` (langchainService.js:426): `Map.delete`,
observationally "set to `[]`". -/
def clearConversationMemory (userId conversationId : String) (m : MemStore) : MemStore :=
  memSet m (memKey userId conversationId) []

/-- `setPendingExtractedData` (langchainService.js:432): drop every entry
tagged `pending_extracted_data`, then push the fresh one. -/
def setPendingExtractedData (userId conversationId : String) (d : Json) (ts : Nat)
    (m : MemStore) : MemStore :=
  let key := memKey userId conversationId
  let filtered := (m key).filter (fun e => !(e.type == "pending_extracted_data"))
  memSet m key (filtered ++ [⟨"pending_extracted_data", d, ts⟩])

/-- `getPendingExtractedData` (langchainService.js:445): `find` the tagged
entry, return its `data`, else `null`. -/
def getPendingExtractedData (userId conversationId : String) (m : MemStore) :
    Option Json :=
  match (m (memKey userId conversationId)).find?
      (fun e => e.type == "pending_extracted_data") with
  | some e => some e.data
  | none => none

/-- `clearPendingExtractedData` (langchainService.js:452). -/
def clearPendingExtractedData (userId conversationId : String) (m : MemStore) : MemStore :=
  memSet m (memKey userId conversationId)
    ((m (memKey userId conversationId)).filter
      (fun e => !(e.type == "pending_extracted_data")))

/-- How many `pending_extracted_data` entries a key holds. -/
def pendingCount (m : MemStore) (k : String) : Nat :=
  (m k).countP (fun e => e.type == "pending_extracted_data")

/-! ## Calendar dates

`normalizeDate` calls `new Date(dateString)` on a token matched by the date
regex and re-emits `toISOString().split('T')[0]`.  We model the civil
calendar with the standard days-from-civil / civil-from-days conversion, the
date-only ISO form as UTC, and the engine's legacy `M/D/Y` parse for the
slash/dash tokens: month strict 1–12, day strict 1–31 with overflow rolling
into the following month, two-digit years mapped into 1950–2049, and the
token construed at local midnight — so a timezone east of UTC shifts the
emitted UTC date back one day.  The timezone offset (minutes east) is an
explicit parameter. -/

def isLeap (y : Int) : Bool :=
  (y % 4 == 0 && y % 100 != 0) || y % 400 == 0

def daysInMonth (y : Int) (m : Int) : Int :=
  if m = 2 then (if isLeap y then 29 else 28)
  else if m = 4 || m = 6 || m = 9 || m = 11 then 30
  else 31

/-- Day count since 1970-01-01 of the civil date `(y, m, d)`. -/
def daysFromCivil (y m d : Int) : Int :=
  let y := y - (if m ≤ 2 then 1 else 0)
  let era := Int.fdiv y 400
  let yoe := y - era * 400
  let mp := Int.emod (m + 9) 12
  let doy := Int.fdiv (153 * mp + 2) 5 + d - 1
  let doe := yoe * 365 + Int.fdiv yoe 4 - Int.fdiv yoe 100 + doy
  era * 146097 + doe - 719468

/-- Civil date `(y, m, d)` of a day count since 1970-01-01. -/
def civilFromDays (z : Int) : Int × Int × Int :=
  let z := z + 719468
  let era := Int.fdiv z 146097
  let doe := z - era * 146097
  let yoe :=
    Int.fdiv (doe - Int.fdiv doe 1460 + Int.fdiv doe 36524 - Int.fdiv doe 146096) 365
  let y := yoe + era * 400
  let doy := doe - (365 * yoe + Int.fdiv yoe 4 - Int.fdiv yoe 100)
  let mp := Int.fdiv (5 * doy + 2) 153
  let d := doy - Int.fdiv (153 * mp + 2) 5 + 1
  let m := mp + (if mp < 10 then 3 else -9)
  (y + (if m ≤ 2 then 1 else 0), m, d)

/-- Split a matched date token into its three digit runs (total on all
inputs; the tokens the regex produces always fit). -/
def splitDateToken (cs : List Char) : Option (List Char × List Char × List Char) :=
  let r1 := cs.takeWhile isDig
  match cs.drop r1.length with
  | s1 :: rest1 =>
    if s1 = '/' || s1 = '-' then
      let r2 := rest1.takeWhile isDig
      match rest1.drop r2.length with
      | s2 :: rest2 =>
        if s2 = '/' || s2 = '-' then
          let r3 := rest2.takeWhile isDig
          if r1.isEmpty || r2.isEmpty || r3.isEmpty then none
          else if (rest2.drop r3.length).isEmpty then some (r1, r2, r3) else none
        else none
      | [] => none
    else none
  | [] => none

/-- Legacy two-digit years land in 1950–2049; longer runs are literal. -/
def legacyYear (ds : List Char) : Int :=
  let v : Int := natOfDigits ds
  if ds.length = 2 then (if v < 50 then 2000 + v else 1900 + v) else v

/-- The civil date `new Date(token)` denotes, as observed through
`toISOString` (i.e. in UTC), or `none` for `Invalid Date`. -/
def jsDateFromToken (tz : Int) (cs : List Char) : Option (Int × Int × Int) :=
  match splitDateToken cs with
  | none => none
  | some (r1, r2, r3) =>
    if r1.length ≥ 3 then
      let y : Int := natOfDigits r1
      let m : Int := natOfDigits r2
      let d : Int := natOfDigits r3
      if 1 ≤ m && m ≤ 12 && 1 ≤ d && d ≤ daysInMonth y m then some (y, m, d) else none
    else
      let mo : Int := natOfDigits r1
      let da : Int := natOfDigits r2
      let yr := legacyYear r3
      if 1 ≤ mo && mo ≤ 12 && 1 ≤ da && da ≤ 31 then
        let base := daysFromCivil yr mo 1 + (da - 1)
        let base := if 0 < tz then base - 1 else base
        some (civilFromDays base)
      else none

def pad2 (n : Nat) : List Char :=
  [Char.ofNat ('0'.toNat + n / 10 % 10), Char.ofNat ('0'.toNat + n % 10)]

def pad4 (n : Nat) : List Char :=
  [Char.ofNat ('0'.toNat + n / 1000 % 10), Char.ofNat ('0'.toNat + n / 100 % 10),
   Char.ofNat ('0'.toNat + n / 10 % 10), Char.ofNat ('0'.toNat + n % 10)]

def pad6 (n : Nat) : List Char :=
  Char.ofNat ('0'.toNat + n / 100000 % 10) :: Char.ofNat ('0'.toNat + n / 10000 % 10) ::
    pad4 (n % 10000)

/-- `toISOString().split('T')[0]`: `YYYY-MM-DD` for years 0–9999, the
`±YYYYYY` extended form outside that range. -/
def isoOfDate (y m d : Int) : String :=
  let core := '-' :: (pad2 m.toNat ++ '-' :: pad2 d.toNat)
  if 0 ≤ y && y ≤ 9999 then String.mk (pad4 y.toNat ++ core)
  else if y < 0 then String.mk ('-' :: (pad6 (-y).toNat ++ core))
  else String.mk ('+' :: (pad6 y.toNat ++ core))

/-- `normalizeDate` (extractionService.js:151): construct the date, `null`
when invalid, else the `YYYY-MM-DD` slice of the ISO string. -/
def normalizeDate (tz : Int) (dateString : String) : Option String :=
  match jsDateFromToken tz dateString.data with
  | none => none
  | some (y, m, d) => some (isoOfDate y m d)

/-- Is a string of the exact shape `YYYY-MM-DD`? -/
def isIsoShape (s : String) : Bool :=
  match s.data with
  | [a, b, c, d, '-', e, f, '-', g, h] => [a, b, c, d, e, f, g, h].all isDig
  | _ => false

/-! ## The pattern extractor

The `amount` and `date` regexes of extractionService.js:96, as explicit
matchers.  A JS regex match scans positions left to right and, at each
position, tries the pattern with greedy quantifiers; both patterns are
simple enough that greediness is deterministic (no quantifier choice can be
revisited by a later element), which the matchers below exploit. -/

/-- Positions are tried left to right; the first hit wins (the first element
of `message.match(...)` with a `/g` regex). -/
def firstMatchBy (f : List Char → Option (List Char)) : List Char → Option (List Char)
  | [] => none
  | c :: rest =>
    match f (c :: rest) with
    | some t => some t
    | none => firstMatchBy f rest

/-- `(?:,\d{3})*`: greedily consume comma-plus-three-digit groups. -/
def takeThousands : List Char → List Char × List Char
  | ',' :: a :: b :: c :: rest =>
    if isDig a && isDig b && isDig c then
      let (g, r) := takeThousands rest
      (',' :: a :: b :: c :: g, r)
    else ([], ',' :: a :: b :: c :: rest)
  | rest => ([], rest)

/-- `\d{1,3}(?:,\d{3})*(?:\.\d{2})?` at the head of the input. -/
def matchAmountNum (cs : List Char) : Option (List Char) :=
  let run := cs.takeWhile isDig
  if run.isEmpty then none
  else
    let ds := run.take 3
    let rest := cs.drop ds.length
    let (groups, rest2) := takeThousands rest
    let frac : List Char :=
      match rest2 with
      | '.' :: a :: b :: _ => if isDig a && isDig b then ['.', a, b] else []
      | _ => []
    some (ds ++ groups ++ frac)

/-- `\$?` then the numeral: a consumed `$` must be followed by a digit
(otherwise backtracking drops the `$`, and the position held a bare `$`,
which no other element can match). -/
def tryAmountAt (cs : List Char) : Option (List Char) :=
  match cs with
  | '$' :: rest =>
    match matchAmountNum rest with
    | some t => some ('$' :: t)
    | none => none
  | _ => matchAmountNum cs

def isDateSep (c : Char) : Bool := c = '/' || c = '-'

/-- `\d{1,2}` whose following element is `[/\-]`: two digits are taken
exactly when a separator follows them, else one digit followed by a
separator; anything else fails (no other backtracking is possible, since
the fallback 1-digit take requires the second character to be both a digit
and a separator). Returns the digits and the rest beginning at the
separator. -/
def grabD12 : List Char → Option (List Char × List Char)
  | a :: b :: c :: r =>
    if isDig a && isDig b && isDateSep c then some ([a, b], c :: r)
    else if isDig a && isDateSep b then some ([a], b :: c :: r)
    else none
  | [a, b] =>
    if isDig a && isDateSep b then some ([a], [b])
    else none
  | _ => none

/-- First date alternative `\d{1,2}[\/\-]\d{1,2}[\/\-]\d{2,4}`. -/
def tryDateAlt1 (cs : List Char) : Option (List Char) :=
  match grabD12 cs with
  | none => none
  | some (d1, rest1) =>
    match rest1 with
    | s1 :: rest2 =>
      (match grabD12 rest2 with
       | none => none
       | some (d2, rest3) =>
         match rest3 with
         | s2 :: rest4 =>
           let run := rest4.takeWhile isDig
           if run.length < 2 then none
           else some (d1 ++ s1 :: (d2 ++ s2 :: run.take 4))
         | [] => none)
    | [] => none

/-- Second date alternative `\d{4}-\d{2}-\d{2}`. -/
def tryDateAlt2 (cs : List Char) : Option (List Char) :=
  match cs with
  | a :: b :: c :: d :: '-' :: e :: f :: '-' :: g :: h :: _ =>
    if [a, b, c, d, e, f, g, h].all isDig then some [a, b, c, d, '-', e, f, '-', g, h]
    else none
  | _ => none

/-- The date regex at one position: alternatives in written order. -/
def tryDateAt (cs : List Char) : Option (List Char) :=
  match tryDateAlt1 cs with
  | some t => some t
  | none => tryDateAlt2 cs

/-- `.replace(/[$,]/g, '')` on a matched amount token. -/
def stripAmount (tok : List Char) : String :=
  String.mk (tok.filter (fun c => !(c = '$' || c = ',')))

/-- The two fields of the extractor's result record the claims are about.
`amount` is absent or a string; `date` is absent (`none`), `null`
(`some none`, when `normalizeDate` rejects the token) or a string. -/
structure ExtractedData where
  amount : Option String
  date : Option (Option String)
deriving Repr, DecidableEq

/-- `extractFinancialData` (extractionService.js:105), restricted to its
`amount` and `date` assignments.  The remaining assignments (`client`,
`email`, `invoiceNumber`, `description`) neither read nor write these two
fields — `extractDescription` reads `data.client`/`data.amount` but only to
build `data.description` — so the two fields under claim are exactly as in
the full record.  Nothing in the `try` block can throw on this path, so the
`catch` returning `{}` is dead here. -/
def extractFinancialData (tz : Int) (message : String) : ExtractedData :=
  let amount :=
    (firstMatchBy tryAmountAt message.data).map stripAmount
  let date :=
    (firstMatchBy tryDateAt message.data).map
      (fun tok => normalizeDate tz (String.mk tok))
  ⟨amount, date⟩

/-! ## String images of values (template literals) -/

/-- Digits of a natural number, most significant first (fuel-indexed). -/
def natDigitsAux : Nat → Nat → List Char
  | 0, _ => []
  | fuel + 1, n =>
    if n = 0 then [] else natDigitsAux fuel (n / 10) ++ [Char.ofNat ('0'.toNat + n % 10)]

def natDigits (n : Nat) : List Char :=
  if n = 0 then ['0'] else natDigitsAux (n + 1) n

/-- JS decimal printing of an exact-decimal value (sign, integer digits,
point, fraction digits; normalization already removed trailing zeros, which
matches the shortest-digits form JS prints for these magnitudes). -/
def decNumToString (v : DecNum) : String :=
  let sign : List Char := if v.man < 0 then ['-'] else []
  let a := v.man.natAbs
  if v.exp = 0 then String.mk (sign ++ natDigits a)
  else
    let ds := natDigits a
    let ds := if ds.length ≤ v.exp then List.replicate (v.exp + 1 - ds.length) '0' ++ ds else ds
    String.mk (sign ++ ds.take (ds.length - v.exp) ++ '.' :: ds.drop (ds.length - v.exp))

mutual

/-- JS `String(v)` on a JSON value. -/
def jsStringOfJson : Json → String
  | .null => "null"
  | .bool b => if b then "true" else "false"
  | .num v => decNumToString v
  | .str s => s
  | .arr l => jsStringOfArr l
  | .obj _ => "[object Object]"

/-- `Array.prototype.join(',')` with `null` elements printing empty. -/
def jsStringOfArr : List Json → String
  | [] => ""
  | [x] =>
    (match x with
     | .null => ""
     | v => jsStringOfJson v)
  | x :: y :: r =>
    (match x with
     | .null => ""
     | v => jsStringOfJson v) ++ "," ++ jsStringOfArr (y :: r)

end

/-- A `${v}` template slot for a possibly-absent value. -/
def jsTemplateVal (o : Option Json) : String :=
  match o with
  | none => "undefined"
  | some v => jsStringOfJson v

/-- `${Math.abs(v)}` (coerce to number, absolute value; `NaN` prints
as such). -/
def jsMathAbsStr (o : Option Json) : String :=
  match o with
  | none => "NaN"
  | some v =>
    match jsToNumber v with
    | none => "NaN"
    | some q => decNumToString ⟨q.man.natAbs, q.exp⟩

/-! ## The dispatcher handlers (aiService.js)

The merged entity record `{...intent.entities, ...extractedData}` is an
object whose `client`/`amount`/`description`/`date` slots each hold a JSON
value or are absent.  The accounting backend (`createInvoice`,
`recordTransaction` of openBookService.js) is passed in as a function
returning `Except` — `.error` models a throw, e.g. the Zod rejection of a
non-positive or `NaN` amount — and each handler also returns the input it
invoked the backend with (`none` when no call was made), which makes the
"no external call" part of the claims a statement about the returned
value. -/

structure EntityData where
  client : Option Json
  amount : Option Json
  description : Option Json
  date : Option Json
deriving Repr

/-- JS `a || b` as used for the entity defaults. -/
def jsOr (o : Option Json) (dflt : Json) : Json :=
  match o with
  | some v => if jsTruthy v then v else dflt
  | none => dflt

/-- `parseFloat` applied to a possibly-absent value
(`parseFloat(undefined)` is `NaN`). -/
def jsParseFloatOpt (o : Option Json) : Option DecNum :=
  match o with
  | none => none
  | some v => jsParseFloatJson v

structure InvoiceInput where
  client : Json
  amount : Option DecNum
  description : Json
  date : Json
  userId : String
deriving Repr

structure TransactionInput where
  amount : Option DecNum
  description : Json
  date : Json
  type : String
  userId : String
deriving Repr, DecidableEq

/-- The invoice-creation request `handleInvoiceCreation` builds
(aiService.js:113): `today` stands for
`new Date().toISOString().split('T')[0]`, the clock made explicit. -/
def mkInvoiceInput (today : String) (data : EntityData) (userId : String) : InvoiceInput :=
  { client := data.client.getD .null
    amount := jsParseFloatOpt data.amount
    description := jsOr data.description (.str "Service provided")
    date := jsOr data.date (.str today)
    userId := userId }

def clarifyInvoiceMsg : String :=
  "I need more information to create an invoice. Please provide the client name and amount. For example: \x27Create an invoice for John Doe for $500\x27"

def apologyInvoiceMsg : String :=
  "Sorry, I couldn\x27t create the invoice. Please try again with the client name and amount."

/-- `handleInvoiceCreation` (aiService.js:102).  Result: the user-facing
message, the `data` slot (`Json.null` models `data: null`), and the input
the backend was invoked with, `none` when it never was. -/
def handleInvoiceCreation (backend : InvoiceInput → Except String Json) (today : String)
    (data : EntityData) (userId : String) : String × Json × Option InvoiceInput :=
  if !(jsTruthyOpt data.client) || !(jsTruthyOpt data.amount) then
    (clarifyInvoiceMsg, .null, none)
  else
    let input := mkInvoiceInput today data userId
    match backend input with
    | .ok invoice =>
      ("Invoice created successfully! Invoice #" ++ jsTemplateVal (jsGetField invoice "id") ++
          " for " ++ jsTemplateVal data.client ++ " - $" ++ jsTemplateVal data.amount,
        invoice, some input)
    | .error _ => (apologyInvoiceMsg, .null, some input)

/-- The transaction request `handleTransactionRecord` builds
(aiService.js:143): the recorded type is `'income'` exactly when the JS
comparison `data.amount > 0` holds on the raw entity value. -/
def mkTransactionInput (today : String) (data : EntityData) (userId : String) :
    TransactionInput :=
  { amount := jsParseFloatOpt data.amount
    description := data.description.getD .null
    date := jsOr data.date (.str today)
    type := if jsGtNum data.amount (decInt 0) then "income" else "expense"
    userId := userId }

def clarifyTransactionMsg : String :=
  "I need more details to record this transaction. Please provide the amount and description."

def apologyTransactionMsg : String :=
  "Sorry, I couldn\x27t record the transaction. Please try again."

/-- `handleTransactionRecord` (aiService.js:134). -/
def handleTransactionRecord (backend : TransactionInput → Except String Json) (today : String)
    (data : EntityData) (userId : String) : String × Json × Option TransactionInput :=
  if !(jsTruthyOpt data.amount) || !(jsTruthyOpt data.description) then
    (clarifyTransactionMsg, .null, none)
  else
    let input := mkTransactionInput today data userId
    match backend input with
    | .ok t =>
      ("Transaction recorded successfully! " ++ jsTemplateVal data.description ++ " - $" ++
          jsMathAbsStr data.amount,
        t, some input)
    | .error _ => (apologyTransactionMsg, .null, some input)

/-! ## Extracted-data cleaning (`validateAndCleanExtractedData`) -/

/-- Field lookup on a field list (`cleaned[k]`; `none` = `undefined`). -/
def objGet (fields : List (String × Json)) (k : String) : Option Json :=
  (fields.find? (fun p => p.1 = k)).map Prod.snd

/-- One iteration of the amount loop (langchainService.js:464): the guard
`cleaned[field] !== null && cleaned[field] !== undefined` skips `null` and
absent fields, otherwise `parseFloat` runs and `NaN` maps to `null`. -/
def cleanAmountField (fields : List (String × Json)) (k : String) :
    List (String × Json) :=
  match objGet fields k with
  | none => fields
  | some v =>
    if v = .null then fields
    else
      match jsParseFloatJson v with
      | none => objSet fields k .null
      | some q => objSet fields k (.num q)

/-- One iteration of the date loop (langchainService.js:472): a *truthy*
value failing `isValidDate` becomes `null`; falsy values (`""`, `0`, …)
and absent fields are left untouched. -/
def cleanDateField (isValidDate : Json → Bool) (fields : List (String × Json))
    (k : String) : List (String × Json) :=
  match objGet fields k with
  | none => fields
  | some v => if jsTruthy v && !(isValidDate v) then objSet fields k .null else fields

/-- `Array.isArray`. -/
def isArrayVal : Option Json → Bool
  | some (.arr _) => true
  | _ => false

/-- `validateAndCleanExtractedData` (langchainService.js:460) over the
field list of the input object.  `isValidDate` (langchainService.js:493,
`new Date(s)` validity) is an oracle parameter: `new Date` on an arbitrary
string is engine-defined, and every theorem below holds for every oracle
(the counterexample never consults it, since the code guards the call with
truthiness). -/
def validateAndCleanExtractedData (isValidDate : Json → Bool)
    (fields : List (String × Json)) : List (String × Json) :=
  let cleaned := fields
  let cleaned := cleanAmountField cleaned "totalAmount"
  let cleaned := cleanAmountField cleaned "subtotal"
  let cleaned := cleanAmountField cleaned "taxAmount"
  let cleaned := cleanDateField isValidDate cleaned "invoiceDate"
  let cleaned := cleanDateField isValidDate cleaned "dueDate"
  let cleaned :=
    if jsGtNum (objGet cleaned "confidence") (decInt 1) then
      objSet cleaned "confidence" (.num (decInt 1))
    else cleaned
  let cleaned :=
    if jsLtNum (objGet cleaned "confidence") (decInt 0) then
      objSet cleaned "confidence" (.num (decInt 0))
    else cleaned
  let cleaned :=
    if !(jsTruthyOpt (objGet cleaned "currency")) then objSet cleaned "currency" (.str "USD")
    else cleaned
  let cleaned :=
    if isArrayVal (objGet cleaned "extractedFields") then cleaned
    else objSet cleaned "extractedFields" (.arr [])
  cleaned

/-! ## Helper lemmas -/

theorem find?_append_none {α} (p : α → Bool) (l₁ l₂ : List α) (h : l₁.find? p = none) :
    (l₁ ++ l₂).find? p = l₂.find? p := by
  induction l₁ with
  | nil => rfl
  | cons a t ih =>
    cases hp : p a with
    | true => simp [List.find?, hp] at h
    | false =>
      simp only [List.find?, hp] at h
      simpa only [List.cons_append, List.find?, hp] using ih h

theorem find?_singleton_pos {α} (p : α → Bool) (a : α) (h : p a = true) :
    [a].find? p = some a := by
  simp [List.find?, h]

theorem find?_setMap_self (l : List (String × Json)) (k : String) (v : Json)
    (h : l.any (fun p => p.1 = k) = true) :
    (l.map (fun p => if p.1 = k then (k, v) else p)).find? (fun p => p.1 = k) = some (k, v) := by
  induction l with
  | nil => simp at h
  | cons a t ih =>
    by_cases ha : a.1 = k
    · simp [List.find?, ha]
    · have h' : t.any (fun p => p.1 = k) = true := by simpa [List.any_cons, ha] using h
      simpa [List.find?, ha] using ih h'

theorem find?_append_some {α} (p : α → Bool) (l₁ l₂ : List α) (a : α)
    (h : l₁.find? p = some a) : (l₁ ++ l₂).find? p = some a := by
  induction l₁ with
  | nil => simp [List.find?] at h
  | cons b t ih =>
    cases hb : p b with
    | true =>
      simp only [List.find?, hb] at h
      simp only [List.cons_append, List.find?, hb]
      exact h
    | false =>
      simp only [List.find?, hb] at h
      simp only [List.cons_append, List.find?, hb]
      exact ih h

theorem find?_setMap_ne (l : List (String × Json)) (k : String) (v : Json) (k' : String)
    (h : k' ≠ k) :
    (l.map (fun p => if p.1 = k then (k, v) else p)).find? (fun p => p.1 = k') =
      l.find? (fun p => p.1 = k') := by
  induction l with
  | nil => rfl
  | cons a t ih =>
    rw [List.map_cons]
    by_cases ha : a.1 = k
    · rw [if_pos ha]
      have h₁ : decide ((k, v).1 = k') = false :=
        decide_eq_false (fun hh => h hh.symm)
      have h₂ : decide (a.1 = k') = false :=
        decide_eq_false (fun hh => h (by rw [← hh, ha]))
      simp only [List.find?, h₁, h₂]
      exact ih
    · rw [if_neg ha]
      cases ha' : decide (a.1 = k') with
      | true => simp only [List.find?, ha']
      | false =>
        simp only [List.find?, ha']
        exact ih

theorem objGet_objSet_self (fields : List (String × Json)) (k : String) (v : Json) :
    objGet (objSet fields k v) k = some v := by
  unfold objSet objGet
  split
  case isTrue h => rw [find?_setMap_self fields k v h]; rfl
  case isFalse h =>
    have hn : fields.find? (fun p => p.1 = k) = none := by
      rw [List.find?_eq_none]
      intro a ha
      simp only [List.any_eq_true] at h
      simpa using fun hk => h ⟨a, ha, by simpa using hk⟩
    rw [find?_append_none _ _ _ hn, find?_singleton_pos _ _ (by simp)]
    rfl

theorem objGet_objSet_ne (fields : List (String × Json)) (k : String) (v : Json)
    (k' : String) (h : k' ≠ k) :
    objGet (objSet fields k v) k' = objGet fields k' := by
  unfold objSet objGet
  split
  case isTrue _ => rw [find?_setMap_ne fields k v k' h]
  case isFalse _ =>
    cases hf : fields.find? (fun p => p.1 = k') with
    | some a => rw [find?_append_some _ _ _ _ hf]
    | none =>
      rw [find?_append_none _ _ _ hf]
      have h₁ : decide ((k, v).1 = k') = false :=
        decide_eq_false (fun hh => h hh.symm)
      simp only [List.find?, h₁]

/-- The eviction cap: keep the last 20 entries (identity on shorter lists,
since `drop 0` when the truncated subtraction bottoms out). -/
def cap20 (l : List MemEntry) : List MemEntry :=
  l.drop (l.length - 20)

theorem cap20_of_le (l : List MemEntry) (h : l.length ≤ 20) : cap20 l = l := by
  unfold cap20
  rw [Nat.sub_eq_zero_of_le h, List.drop_zero]

theorem cap20_length (l : List MemEntry) : (cap20 l).length ≤ 20 := by
  unfold cap20
  rw [List.length_drop]
  omega

/-- Both branches of the `if` in `addToConversationMemory` compute
`cap20` of the pushed list. -/
theorem addToConversationMemory_eq (u c : String) (item : MemEntry) (m : MemStore) :
    addToConversationMemory u c item m =
      memSet m (memKey u c) (cap20 (m (memKey u c) ++ [item])) := by
  unfold addToConversationMemory
  dsimp only
  by_cases hc : (m (memKey u c) ++ [item]).length > 20
  · rw [if_pos hc]
    rfl
  · rw [if_neg hc, cap20_of_le _ (by omega)]

theorem cap20_append (l r : List MemEntry) : cap20 (cap20 l ++ r) = cap20 (l ++ r) := by
  unfold cap20
  rw [show l.drop (l.length - 20) ++ r = (l ++ r).drop (l.length - 20) by
    rw [List.drop_append_eq_append_drop, Nat.sub_eq_zero_of_le (Nat.sub_le _ _),
      List.drop_zero]]
  rw [List.drop_drop]
  congr 1
  simp only [List.length_drop, List.length_append]
  omega

/-- Folding appends over the store computes the cap of the concatenation,
provided the key starts within its bound (which every reachable store
satisfies). -/
theorem fold_add_eq (u c : String) :
    ∀ (es : List MemEntry) (m : MemStore), (m (memKey u c)).length ≤ 20 →
      (es.foldl (fun acc e => addToConversationMemory u c e acc) m) (memKey u c) =
        cap20 (m (memKey u c) ++ es)
  | [], m, h => by rw [List.foldl_nil, List.append_nil, cap20_of_le _ h]
  | e :: es, m, h => by
    rw [List.foldl_cons, addToConversationMemory_eq]
    have hkey : (memSet m (memKey u c) (cap20 (m (memKey u c) ++ [e]))) (memKey u c) =
        cap20 (m (memKey u c) ++ [e]) := by
      unfold memSet
      rw [if_pos rfl]
    rw [fold_add_eq u c es _ (by rw [hkey]; exact cap20_length _), hkey, cap20_append,
      List.append_assoc]
    rfl

theorem countP_filter_out (l : List MemEntry) (p : MemEntry → Bool) :
    (l.filter (fun e => !(p e))).countP p = 0 := by
  rw [List.countP_eq_zero]
  intro a ha
  have := List.of_mem_filter ha
  simp only [Bool.not_eq_true'] at this
  simp [this]

theorem find?_filter_out_none (l : List MemEntry) (p : MemEntry → Bool) :
    (l.filter (fun e => !(p e))).find? p = none := by
  rw [List.find?_eq_none]
  intro a ha
  have := List.of_mem_filter ha
  simp only [Bool.not_eq_true'] at this
  simp [this]

theorem fallback_usable (message : String) :
    intentResponseUsable (detectIntentFallback message) = true := by
  unfold detectIntentFallback
  dsimp only
  split
  · decide
  · split
    · decide
    · split
      · decide
      · decide

theorem isDig_digitChar (n : Nat) : isDig (Char.ofNat (48 + n % 10)) = true := by
  have h : n % 10 < 10 := Nat.mod_lt _ (by decide)
  set r := n % 10 with hr
  interval_cases r <;> decide

theorem objGet_ite_set_right_ne (cond : Bool) (a : List (String × Json)) (kk : String)
    (vv : Json) (k' : String) (h : k' ≠ kk) :
    objGet (if cond then objSet a kk vv else a) k' = objGet a k' := by
  split
  · exact objGet_objSet_ne a kk vv k' h
  · rfl

theorem objGet_ite_set_left_ne (cond : Bool) (a : List (String × Json)) (kk : String)
    (vv : Json) (k' : String) (h : k' ≠ kk) :
    objGet (if cond then a else objSet a kk vv) k' = objGet a k' := by
  split
  · rfl
  · exact objGet_objSet_ne a kk vv k' h

theorem objGet_cleanAmountField_ne (fields : List (String × Json)) (k k' : String)
    (h : k' ≠ k) : objGet (cleanAmountField fields k) k' = objGet fields k' := by
  unfold cleanAmountField
  split
  · rfl
  · split
    · rfl
    · split
      · exact objGet_objSet_ne fields k _ k' h
      · exact objGet_objSet_ne fields k _ k' h

theorem objGet_cleanDateField_ne (dv : Json → Bool) (fields : List (String × Json))
    (k k' : String) (h : k' ≠ k) :
    objGet (cleanDateField dv fields k) k' = objGet fields k' := by
  unfold cleanDateField
  split
  · rfl
  · split
    · exact objGet_objSet_ne fields k _ k' h
    · rfl

/-- The per-field contract of the amount loop, stated from the spec side
for the amended claim: a present non-null value becomes the `parseFloat`
number, or `null` when that is `NaN`; `null` stays `null`; an absent field
stays absent. -/
def amountCleanSpec (o : Option Json) : Option Json :=
  match o with
  | none => none
  | some v =>
    if v = .null then some .null
    else
      some (match jsParseFloatJson v with
            | none => .null
            | some q => .num q)

/-- The per-field contract of the date loop for the amended claim: a
present truthy value failing the validity oracle becomes `null`; anything
else (valid dates, but also falsy values such as `""` and absent fields)
is left exactly as it was. -/
def dateCleanSpec (dv : Json → Bool) (o : Option Json) : Option Json :=
  match o with
  | none => none
  | some v => if jsTruthy v && !(dv v) then some .null else some v

theorem objGet_cleanAmountField_self (fields : List (String × Json)) (k : String) :
    objGet (cleanAmountField fields k) k = amountCleanSpec (objGet fields k) := by
  unfold cleanAmountField amountCleanSpec
  split
  · next heq => rw [heq]
  · next v heq =>
    by_cases hnull : v = Json.null
    · rw [if_pos hnull, if_pos hnull, heq, hnull]
    · rw [if_neg hnull, if_neg hnull]
      cases hp : jsParseFloatJson v with
      | none => simp only [hp]; rw [objGet_objSet_self]
      | some q => simp only [hp]; rw [objGet_objSet_self]

theorem objGet_cleanDateField_self (dv : Json → Bool) (fields : List (String × Json))
    (k : String) :
    objGet (cleanDateField dv fields k) k = dateCleanSpec dv (objGet fields k) := by
  unfold cleanDateField dateCleanSpec
  split
  · next heq => rw [heq]
  · next v heq =>
    by_cases hcond : (jsTruthy v && !(dv v)) = true
    · rw [if_pos hcond, if_pos hcond, objGet_objSet_self]
    · rw [if_neg hcond, if_neg hcond]
      exact heq

/-- The final `extractedFields` guard always leaves an array in the slot. -/
theorem extractedFields_step (y : List (String × Json)) :
    ∃ l, objGet
        (if isArrayVal (objGet y "extractedFields") then y
         else objSet y "extractedFields" (.arr [])) "extractedFields" = some (.arr l) := by
  cases hv : objGet y "extractedFields" with
  | none => exact ⟨[], by simp [isArrayVal, hv, objGet_objSet_self]⟩
  | some v =>
    cases v with
    | arr l => exact ⟨l, by simp [isArrayVal, hv]⟩
    | null => exact ⟨[], by simp [isArrayVal, hv, objGet_objSet_self]⟩
    | bool b => exact ⟨[], by simp [isArrayVal, hv, objGet_objSet_self]⟩
    | num n => exact ⟨[], by simp [isArrayVal, hv, objGet_objSet_self]⟩
    | str s => exact ⟨[], by simp [isArrayVal, hv, objGet_objSet_self]⟩
    | obj o => exact ⟨[], by simp [isArrayVal, hv, objGet_objSet_self]⟩

/-- The two sequential confidence `if`s clamp a numeric confidence into
`[0, 1]` (stated on the list the clamp block receives). -/
theorem confidence_clamp_step (y : List (String × Json)) (q : DecNum)
    (hy : objGet y "confidence" = some (.num q)) :
    ∃ q', objGet
        (if jsLtNum
            (objGet
              (if jsGtNum (objGet y "confidence") (decInt 1) then
                objSet y "confidence" (.num (decInt 1))
              else y) "confidence") (decInt 0) then
          objSet
            (if jsGtNum (objGet y "confidence") (decInt 1) then
              objSet y "confidence" (.num (decInt 1))
            else y) "confidence" (.num (decInt 0))
        else
          (if jsGtNum (objGet y "confidence") (decInt 1) then
            objSet y "confidence" (.num (decInt 1))
          else y)) "confidence" = some (.num q') ∧
        DecNum.lt q' (decInt 0) = false ∧ DecNum.lt (decInt 1) q' = false := by
  by_cases h1 : jsGtNum (objGet y "confidence") (decInt 1) = true
  · refine ⟨decInt 1, ?_, by decide, by decide⟩
    rw [if_pos h1, objGet_objSet_self]
    rw [show jsLtNum (some (Json.num (decInt 1))) (decInt 0) = false from by decide]
    simp [objGet_objSet_self]
  · rw [if_neg h1, hy]
    rw [hy] at h1
    by_cases h2 : jsLtNum (some (Json.num q)) (decInt 0) = true
    · refine ⟨decInt 0, ?_, by decide, by decide⟩
      rw [if_pos h2, objGet_objSet_self]
    · refine ⟨q, ?_, ?_, ?_⟩
      · rw [if_neg h2, hy]
      · simpa [jsLtNum, jsToNumber] using h2
      · simpa [jsGtNum, jsToNumber] using h1

/-- The currency default: a falsy slot becomes `"USD"`. -/
theorem currency_step (y : List (String × Json))
    (hcur : jsTruthyOpt (objGet y "currency") = false) :
    objGet
      (if !(jsTruthyOpt (objGet y "currency")) then objSet y "currency" (.str "USD") else y)
      "currency" = some (.str "USD") := by
  rw [if_pos (by rw [hcur]; rfl)]
  exact objGet_objSet_self _ _ _

/-! ## The claims -/

/-- C7: for every key, the conversation history never exceeds 20 entries
after any append, and appending 25 entries to one key (starting from the
empty store) leaves exactly the last 20 appended entries, in their original
relative order, the 5 oldest evicted. -/
theorem c7_history_cap (u c : String) (m : MemStore) (item : MemEntry)
    (es : List MemEntry) (h25 : es.length = 25) :
    ((addToConversationMemory u c item m) (memKey u c)).length ≤ 20 ∧
    (es.foldl (fun acc e => addToConversationMemory u c e acc) memEmpty) (memKey u c) =
      es.drop 5 := by
  constructor
  · rw [addToConversationMemory_eq]
    have : (memSet m (memKey u c) (cap20 (m (memKey u c) ++ [item]))) (memKey u c) =
        cap20 (m (memKey u c) ++ [item]) := by
      unfold memSet
      rw [if_pos rfl]
    rw [this]
    exact cap20_length _
  · rw [fold_add_eq u c es memEmpty (by simp [memEmpty])]
    have : memEmpty (memKey u c) = [] := rfl
    rw [this, List.nil_append]
    unfold cap20
    rw [h25]

/-- C7 witness: 25 distinct entries appended to one key leave exactly the
last 20, in order. -/
theorem c7_history_cap_witness :
    (((List.range 25).map (fun i => (⟨"conversation", .null, i⟩ : MemEntry))).foldl
        (fun acc e => addToConversationMemory "u" "conv" e acc) memEmpty) (memKey "u" "conv") =
      ((List.range 25).map (fun i => (⟨"conversation", .null, i⟩ : MemEntry))).drop 5 :=
  (c7_history_cap "u" "conv" memEmpty ⟨"x", .null, 0⟩ _ (by simp)).2

/-- C8: per key, at most one `pending_extracted_data` record can ever
exist: a set leaves exactly one (so a double set leaves exactly one,
holding the second value, which `get` returns), `get` on a pending-free
store returns `null`, `clear` removes every pending record, and an
ordinary history append (`intent_detection`/`conversation` items) never
increases the pending count. -/
theorem c8_pending_singleton (u c : String) (m : MemStore) (d₁ d₂ : Json) (t₁ t₂ : Nat)
    (e : MemEntry) (he : e.type ≠ "pending_extracted_data") :
    pendingCount (setPendingExtractedData u c d₂ t₂ (setPendingExtractedData u c d₁ t₁ m))
        (memKey u c) = 1 ∧
    getPendingExtractedData u c
        (setPendingExtractedData u c d₂ t₂ (setPendingExtractedData u c d₁ t₁ m)) = some d₂ ∧
    (pendingCount m (memKey u c) = 0 → getPendingExtractedData u c m = none) ∧
    pendingCount (clearPendingExtractedData u c m) (memKey u c) = 0 ∧
    pendingCount (setPendingExtractedData u c d₁ t₁ m) (memKey u c) = 1 ∧
    pendingCount (addToConversationMemory u c e m) (memKey u c) ≤
      pendingCount m (memKey u c) := by
  have hset : ∀ (d : Json) (ts : Nat) (m' : MemStore),
      (setPendingExtractedData u c d ts m') (memKey u c) =
        ((m' (memKey u c)).filter (fun x => !(x.type == "pending_extracted_data"))) ++
          [⟨"pending_extracted_data", d, ts⟩] := by
    intro d ts m'
    unfold setPendingExtractedData memSet
    rw [if_pos rfl]
  have hcount : ∀ (d : Json) (ts : Nat) (m' : MemStore),
      pendingCount (setPendingExtractedData u c d ts m') (memKey u c) = 1 := by
    intro d ts m'
    unfold pendingCount
    rw [hset, List.countP_append, countP_filter_out]
    rfl
  have hget : ∀ (d : Json) (ts : Nat) (m' : MemStore),
      getPendingExtractedData u c (setPendingExtractedData u c d ts m') = some d := by
    intro d ts m'
    unfold getPendingExtractedData
    rw [hset, find?_append_none _ _ _ (find?_filter_out_none _ _),
      find?_singleton_pos _ _ (by rfl)]
  refine ⟨hcount _ _ _, hget _ _ _, ?_, ?_, hcount _ _ _, ?_⟩
  · intro h0
    unfold getPendingExtractedData
    unfold pendingCount at h0
    rw [List.countP_eq_zero] at h0
    rw [List.find?_eq_none.2 h0]
  · unfold clearPendingExtractedData pendingCount memSet
    rw [if_pos rfl, countP_filter_out]
  · rw [addToConversationMemory_eq]
    unfold pendingCount memSet
    rw [if_pos rfl]
    calc (cap20 (m (memKey u c) ++ [e])).countP (fun x => x.type == "pending_extracted_data") ≤
        (m (memKey u c) ++ [e]).countP (fun x => x.type == "pending_extracted_data") :=
          List.Sublist.countP_le _ (List.drop_sublist _ _)
      _ = pendingCount m (memKey u c) := by
          rw [List.countP_append]
          have : (fun x : MemEntry => x.type == "pending_extracted_data") e = false := by
            simpa using he
          simp [List.countP_cons, this, pendingCount]

/-- C8 witness: a concrete double set, get, and clear on one key. -/
theorem c8_pending_singleton_witness :
    pendingCount (setPendingExtractedData "u" "conv" (.str "B") 2
        (setPendingExtractedData "u" "conv" (.str "A") 1 memEmpty)) (memKey "u" "conv") = 1 ∧
    getPendingExtractedData "u" "conv"
        (setPendingExtractedData "u" "conv" (.str "B") 2
          (setPendingExtractedData "u" "conv" (.str "A") 1 memEmpty)) = some (.str "B") :=
  ⟨(c8_pending_singleton "u" "conv" memEmpty (.str "A") (.str "B") 1 2
      ⟨"conversation", .null, 0⟩ (by decide)).1,
    (c8_pending_singleton "u" "conv" memEmpty (.str "A") (.str "B") 1 2
      ⟨"conversation", .null, 0⟩ (by decide)).2.1⟩

/-- C9 counterexample: the claim is false for pairs whose concatenated keys
collide: `("a", "b-c")` and `("a-b", "c")` are distinct pairs, yet an
append to the first changes the second's history (both map to the key
`"a-b-c"`). -/
theorem c9_key_collision_counterexample :
    ("a", "b-c") ≠ ("a-b", "c") ∧
    (addToConversationMemory "a" "b-c" ⟨"conversation", .null, 0⟩ memEmpty)
        (memKey "a-b" "c") ≠ memEmpty (memKey "a-b" "c") := by
  constructor
  · decide
  · intro hcontra
    simp [addToConversationMemory, memSet, memKey, memEmpty] at hcontra

/-- C9 (amended): for any two pairs whose concatenated
`` `${userId}-${conversationId}` `` keys differ, every memory-store
operation applied to one pair leaves the other pair's history list and
pending record unchanged. -/
theorem c9_frame (u₁ c₁ u₂ c₂ : String) (hk : memKey u₁ c₁ ≠ memKey u₂ c₂)
    (m : MemStore) (e : MemEntry) (d : Json) (ts : Nat) :
    (addToConversationMemory u₁ c₁ e m) (memKey u₂ c₂) = m (memKey u₂ c₂) ∧
    (setPendingExtractedData u₁ c₁ d ts m) (memKey u₂ c₂) = m (memKey u₂ c₂) ∧
    (clearPendingExtractedData u₁ c₁ m) (memKey u₂ c₂) = m (memKey u₂ c₂) ∧
    (clearConversationMemory u₁ c₁ m) (memKey u₂ c₂) = m (memKey u₂ c₂) ∧
    getPendingExtractedData u₂ c₂ (addToConversationMemory u₁ c₁ e m) =
      getPendingExtractedData u₂ c₂ m := by
  have hs : ∀ v, (memSet m (memKey u₁ c₁) v) (memKey u₂ c₂) = m (memKey u₂ c₂) := by
    intro v
    unfold memSet
    rw [if_neg (Ne.symm hk)]
  have h₁ : (addToConversationMemory u₁ c₁ e m) (memKey u₂ c₂) = m (memKey u₂ c₂) := by
    rw [addToConversationMemory_eq]; exact hs _
  refine ⟨h₁, ?_, ?_, ?_, ?_⟩
  · unfold setPendingExtractedData; exact hs _
  · unfold clearPendingExtractedData; exact hs _
  · unfold clearConversationMemory; exact hs _
  · unfold getPendingExtractedData; rw [h₁]

/-- C9 witness: distinct keys, concrete instance. -/
theorem c9_frame_witness :
    (addToConversationMemory "alice" "chat1" ⟨"conversation", .null, 0⟩ memEmpty)
        (memKey "bob" "chat2") = memEmpty (memKey "bob" "chat2") :=
  (c9_frame "alice" "chat1" "bob" "chat2" (by decide) memEmpty ⟨"conversation", .null, 0⟩
    .null 0).1

/-- C2 counterexample: the claim's universal failure clause ("on any input
with no balanced brace-delimited object it returns a failure") is false as
stated: the input `"42"` contains no brace at all — a fortiori no balanced
brace-delimited object — yet `extractValidJson` returns the JSON number 42,
because the first tier (the whole-string `JSON.parse`) succeeds before the
brace scanner is ever consulted. -/
theorem c2_counterexample :
    dropUntilBrace (trimChars "42".data) = none ∧
      extractValidJson "42" = some (.num (decInt 42)) := by
  constructor
  · decide
  · decide

/-- C2 (amended): the parser first attempts a whole-string JSON parse and,
on failure, scans from the first `{` tracking string/escape state and brace
depth to recover the first balanced JSON object; the two concrete examples
hold, and on any input where the whole-string parse also fails and the scan
finds no balanced object, the result is a failure (`null`). -/
theorem c2_json_recovery :
    extractValidJson "```json\n\x7b\"a\":1\x7d\n```" =
      some (.obj [("a", .num (decInt 1))]) ∧
    extractValidJson "noise \x7b\"a\":1\x7d trailing" =
      some (.obj [("a", .num (decInt 1))]) ∧
    ∀ s : String, jsonParse s = none →
      (∀ tl, dropUntilBrace (trimChars s.data) = some tl →
        findBalanced tl 0 false false [] = none) →
      extractValidJson s = none := by
  refine ⟨by decide, by decide, ?_⟩
  intro s h1 h2
  unfold extractValidJson
  rw [h1]
  cases hd : dropUntilBrace (trimChars s.data) with
  | none => simp only [hd]
  | some tl => simp only [hd, h2 tl hd]

/-- C2 witness for the amended universal clause: `"{\"a\":1"` has an
unbalanced brace, the whole-string parse fails, and the scanner finds no
balanced object, so the result is `null`. -/
theorem c2_json_recovery_witness :
    extractValidJson "\x7b\"a\":1" = none :=
  c2_json_recovery.2.2 "\x7b\"a\":1" (by decide) (by decide)

/-- C5: for every message in which the amount regex
`\$?\d{1,3}(?:,\d{3})*(?:\.\d{2})?` matches (`tok` being the first match,
the one the code keeps), the extractor's `amount` field is exactly that
token with `$` and the thousands-separator commas stripped — independent of
the timezone parameter and, structurally, of anything the classifier
returned (the extractor never sees it). -/
theorem c5_amount_extraction (tz : Int) (message : String) (tok : List Char)
    (h : firstMatchBy tryAmountAt message.data = some tok) :
    (extractFinancialData tz message).amount = some (stripAmount tok) := by
  unfold extractFinancialData
  rw [h]
  rfl

/-- C5 witness: `$1,234.56` inside a larger message. -/
theorem c5_amount_extraction_witness :
    (extractFinancialData 0 "Invoice Jane for $1,234.56 today").amount = some "1234.56" :=
  (c5_amount_extraction 0 "Invoice Jane for $1,234.56 today" "$1,234.56".data
    (by decide)).trans (by decide)

/-- C6 counterexample: the claim says an unparsable date token leaves the
`date` field *omitted*; in fact `extractFinancialData` assigns
`data.date = normalizeDate(dates[0])` unconditionally once the regex
matched, so the field is present and holds `null` (`some none` in the
embedding, where omission would be `none`).  Token `13/13/2099` has month
13, which `new Date` rejects. -/
theorem c6_counterexample :
    normalizeDate 0 "13/13/2099" = none ∧
    (extractFinancialData 0 "pay me on 13/13/2099").date = some none ∧
    (extractFinancialData 0 "pay me on 13/13/2099").date ≠ none := by
  refine ⟨by decide, by decide, ?_⟩
  intro h
  simp [show (extractFinancialData 0 "pay me on 13/13/2099").date = some none by decide]
    at h

/-- C6 (amended): for every message containing a date token, the extractor
passes the first regex match through `normalizeDate` and stores the result
in the `date` field: a normalized date is emitted as the `YYYY-MM-DD` ISO
slice (`isoOfDate`, which has that ten-character shape for years 0–9999),
and a token that does not construct a valid calendar date leaves the field
present with value `null` — set to null, not omitted. -/
theorem c6_date_normalization (tz : Int) (message : String) (tok : List Char)
    (h : firstMatchBy tryDateAt message.data = some tok) :
    (extractFinancialData tz message).date = some (normalizeDate tz (String.mk tok)) ∧
    (∀ y m d, jsDateFromToken tz (String.mk tok).data = some (y, m, d) →
      normalizeDate tz (String.mk tok) = some (isoOfDate y m d)) ∧
    (∀ y m d : Int, 0 ≤ y → y ≤ 9999 → isIsoShape (isoOfDate y m d) = true) := by
  refine ⟨?_, ?_, ?_⟩
  · unfold extractFinancialData
    rw [h]
    rfl
  · intro y m d hd
    unfold normalizeDate
    rw [hd]
  · intro y m d hy₀ hy₁
    unfold isoOfDate
    rw [if_pos (by simp [hy₀, hy₁])]
    unfold isIsoShape pad4 pad2
    simp only [String.data]
    simp [List.all, isDig_digitChar]

/-- C6 witness: a valid token is emitted as `YYYY-MM-DD`; the amended
null-clause is the counterexample input re-run through the theorem. -/
theorem c6_date_normalization_witness :
    (extractFinancialData 0 "meeting on 12/31/2024 at noon").date =
      some (normalizeDate 0 "12/31/2024") ∧
    (extractFinancialData 0 "pay on 13/13/2099 maybe").date =
      some (normalizeDate 0 "13/13/2099") ∧
    isIsoShape (isoOfDate 2024 12 31) = true :=
  ⟨(c6_date_normalization 0 "meeting on 12/31/2024 at noon" "12/31/2024".data
      (by decide)).1.trans (by decide),
   (c6_date_normalization 0 "pay on 13/13/2099 maybe" "13/13/2099".data
      (by decide)).1.trans (by decide),
   (c6_date_normalization 0 "meeting on 12/31/2024 at noon" "12/31/2024".data
      (by decide)).2.2 2024 12 31 (by decide) (by decide)⟩

/-- C1: for every connection-flag state, every behaviour of the LLM
collaborator and every message, `detectIntent` resolves (never rejects)
with a value passing the code's own IntentResult validation (truthy
`intent`, `confidence`, `entities`); whenever the LLM call fails or its
output is malformed or structurally unusable, the result is exactly the
deterministic fallback classifier's — which carries the fixed conservative
confidence 0.5, `entities = {}`, and `GENERAL_INQUIRY` when no keyword set
matches. -/
theorem c1_classifier_total_fallback (conn : Option Bool) (llm : LLMBehaviour)
    (message : String) :
    intentResponseUsable (detectIntent conn llm message) = true ∧
    (llmOutputUsable llm = false →
      detectIntent conn llm message = detectIntentFallback message) ∧
    jsGetField (detectIntentFallback message) "confidence" = some (.num (mkDec 5 1)) ∧
    jsGetField (detectIntentFallback message) "entities" = some (.obj []) ∧
    (msgHasAny message ["invoice", "bill", "charge"] = false →
      msgHasAny message ["transaction", "expense", "spent", "received", "paid"] = false →
      msgHasAny message ["balance", "summary", "report", "overview"] = false →
      jsGetField (detectIntentFallback message) "intent" = some (.str "GENERAL_INQUIRY")) := by
  refine ⟨?_, ?_, rfl, rfl, ?_⟩
  · unfold detectIntent
    split
    · exact fallback_usable message
    · cases llm with
      | failure e => exact fallback_usable message
      | success raw =>
        dsimp only
        cases hp : parseGeminiResponse raw with
        | none => simp [hp, fallback_usable]
        | some parsed =>
          cases hu : intentResponseUsable parsed with
          | true => simp [hp, hu]
          | false => simp [hp, hu, fallback_usable]
  · intro hfail
    unfold detectIntent
    split
    · rfl
    · cases llm with
      | failure e => rfl
      | success raw =>
        unfold llmOutputUsable at hfail
        dsimp only at hfail ⊢
        cases hp : parseGeminiResponse raw with
        | none => simp [hp]
        | some parsed =>
          simp only [hp] at hfail
          simp [hp, hfail]
  · intro h1 h2 h3
    unfold detectIntentFallback
    dsimp only
    rw [h1, h2, h3]
    rfl

/-- C1 witness: a thrown network error on a keyword-free message yields the
fallback result, whose intent is `GENERAL_INQUIRY`. -/
theorem c1_classifier_total_fallback_witness :
    detectIntent none (.failure "ECONNREFUSED") "hello there" =
      detectIntentFallback "hello there" ∧
    jsGetField (detectIntentFallback "hello there") "intent" =
      some (.str "GENERAL_INQUIRY") :=
  ⟨(c1_classifier_total_fallback none (.failure "ECONNREFUSED") "hello there").2.1 (by decide),
   (c1_classifier_total_fallback none (.failure "ECONNREFUSED") "hello there").2.2.2.2
     (by decide) (by decide) (by decide)⟩

/-- C3: with `client` or `amount` falsy, the CREATE_INVOICE branch returns
the clarifying message with `data: null` and never invokes the backend
(third component `none`); with both truthy — in particular whenever the
amount parses to a positive number — the backend is invoked with the built
input, and a backend failure (throw) yields the apologetic message with
`data: null` instead of an exception. -/
theorem c3_invoice_dispatch (backend : InvoiceInput → Except String Json) (today : String)
    (data : EntityData) (userId : String) :
    ((jsTruthyOpt data.client = false ∨ jsTruthyOpt data.amount = false) →
      handleInvoiceCreation backend today data userId = (clarifyInvoiceMsg, Json.null, none)) ∧
    (jsTruthyOpt data.client = true → jsTruthyOpt data.amount = true →
      ∀ q, jsParseFloatOpt data.amount = some q → DecNum.lt (decInt 0) q = true →
        (handleInvoiceCreation backend today data userId).2.2 =
          some (mkInvoiceInput today data userId) ∧
        (∀ err, backend (mkInvoiceInput today data userId) = .error err →
          handleInvoiceCreation backend today data userId =
            (apologyInvoiceMsg, Json.null, some (mkInvoiceInput today data userId)))) := by
  constructor
  · intro h
    unfold handleInvoiceCreation
    have hguard : (!(jsTruthyOpt data.client) || !(jsTruthyOpt data.amount)) = true := by
      rcases h with h | h <;> simp [h]
    simp [hguard]
  · intro hc ha q hq hpos
    unfold handleInvoiceCreation
    have hguard : (!(jsTruthyOpt data.client) || !(jsTruthyOpt data.amount)) = false := by
      simp [hc, ha]
    simp only [hguard, Bool.false_eq_true, if_false]
    constructor
    · cases hb : backend (mkInvoiceInput today data userId) <;> simp [hb]
    · intro err herr
      simp [herr]

/-- C3 witness: a missing client produces the clarifying answer with no
backend call; a failing backend (the Zod rejection) produces the apology. -/
theorem c3_invoice_dispatch_witness :
    handleInvoiceCreation (fun _ => .error "Invalid invoice data") "2025-06-01"
        ⟨none, some (.str "500"), none, none⟩ "user1" =
      (clarifyInvoiceMsg, Json.null, none) ∧
    handleInvoiceCreation (fun _ => .error "Invalid invoice data") "2025-06-01"
        ⟨some (.str "Jane"), some (.str "500"), none, none⟩ "user1" =
      (apologyInvoiceMsg, Json.null,
        some (mkInvoiceInput "2025-06-01"
          ⟨some (.str "Jane"), some (.str "500"), none, none⟩ "user1")) :=
  ⟨(c3_invoice_dispatch (fun _ => .error "Invalid invoice data") "2025-06-01"
      ⟨none, some (.str "500"), none, none⟩ "user1").1 (Or.inl (by decide)),
   ((c3_invoice_dispatch (fun _ => .error "Invalid invoice data") "2025-06-01"
      ⟨some (.str "Jane"), some (.str "500"), none, none⟩ "user1").2 (by decide) (by decide)
      (decInt 500) (by decide) (by decide)).2 "Invalid invoice data" rfl⟩

/-- C4: with truthy `amount` and `description`, the RECORD_TRANSACTION
branch always invokes the backend with the built input, whose `type` is
`'income'` exactly when the JS comparison `data.amount > 0` holds and
`'expense'` otherwise. -/
theorem c4_transaction_type (backend : TransactionInput → Except String Json) (today : String)
    (data : EntityData) (userId : String)
    (ha : jsTruthyOpt data.amount = true) (hd : jsTruthyOpt data.description = true) :
    (handleTransactionRecord backend today data userId).2.2 =
      some (mkTransactionInput today data userId) ∧
    ((mkTransactionInput today data userId).type = "income" ↔
      jsGtNum data.amount (decInt 0) = true) ∧
    ((mkTransactionInput today data userId).type = "expense" ↔
      jsGtNum data.amount (decInt 0) = false) := by
  refine ⟨?_, ?_, ?_⟩
  · unfold handleTransactionRecord
    have hguard : (!(jsTruthyOpt data.amount) || !(jsTruthyOpt data.description)) = false := by
      simp [ha, hd]
    simp only [hguard, Bool.false_eq_true, if_false]
    cases hb : backend (mkTransactionInput today data userId) <;> simp [hb]
  · unfold mkTransactionInput
    cases hg : jsGtNum data.amount (decInt 0) <;> simp [hg]
  · unfold mkTransactionInput
    cases hg : jsGtNum data.amount (decInt 0) <;> simp [hg]

/-- C4 witness: amount `"-20"` with description `"coffee"` is passed to the
backend with type `'expense'`. -/
theorem c4_transaction_type_witness :
    (handleTransactionRecord (fun _ => .ok .null) "2025-06-01"
        ⟨none, some (.str "-20"), some (.str "coffee"), none⟩ "user1").2.2 =
      some (mkTransactionInput "2025-06-01"
        ⟨none, some (.str "-20"), some (.str "coffee"), none⟩ "user1") ∧
    (mkTransactionInput "2025-06-01"
        ⟨none, some (.str "-20"), some (.str "coffee"), none⟩ "user1").type = "expense" :=
  ⟨(c4_transaction_type (fun _ => .ok .null) "2025-06-01"
      ⟨none, some (.str "-20"), some (.str "coffee"), none⟩ "user1" (by decide) (by decide)).1,
   by decide⟩

/-- C10 counterexample: two clauses of the claim fail as stated.  On input
`{invoiceDate: ""}` the output's `invoiceDate` is still `""` — present,
neither `null` nor a string parsing to a valid date (`new Date("")` is
`Invalid Date`, so every validity oracle answers `false` on it) — because
the code's truthiness guard skips falsy values without consulting
`isValidDate` at all (the result does not depend on the oracle).  And
`totalAmount`, absent from the input, is absent (`undefined`) from the
output, not `null` and not a number. -/
theorem c10_counterexample :
    objGet (validateAndCleanExtractedData (fun _ => false) [("invoiceDate", .str "")])
      "invoiceDate" = some (.str "") ∧
    (fun _ : Json => false) (.str "") = false ∧
    Json.str "" ≠ Json.null ∧
    objGet (validateAndCleanExtractedData (fun _ => false) [("invoiceDate", .str "")])
      "totalAmount" = none := by
  refine ⟨by decide, rfl, by decide, by decide⟩

/-- C10 (amended): for every input object and every `isValidDate` oracle,
the cleaner maps each of `totalAmount`/`subtotal`/`taxAmount`, when present
and non-`null`, to the `parseFloat` number or `null` when that is `NaN`
(absent stays absent, `null` stays `null`); maps each of
`invoiceDate`/`dueDate`, when present and truthy but invalid, to `null`
(leaving valid dates, falsy values and absent fields untouched); clamps a
numeric `confidence` into `[0, 1]`; defaults `currency` to `"USD"`
whenever it is falsy or absent; and always leaves an array in
`extractedFields`. -/
theorem c10_cleaning (dv : Json → Bool) (fields : List (String × Json)) :
    objGet (validateAndCleanExtractedData dv fields) "totalAmount" =
      amountCleanSpec (objGet fields "totalAmount") ∧
    objGet (validateAndCleanExtractedData dv fields) "subtotal" =
      amountCleanSpec (objGet fields "subtotal") ∧
    objGet (validateAndCleanExtractedData dv fields) "taxAmount" =
      amountCleanSpec (objGet fields "taxAmount") ∧
    objGet (validateAndCleanExtractedData dv fields) "invoiceDate" =
      dateCleanSpec dv (objGet fields "invoiceDate") ∧
    objGet (validateAndCleanExtractedData dv fields) "dueDate" =
      dateCleanSpec dv (objGet fields "dueDate") ∧
    (∀ q, objGet fields "confidence" = some (.num q) →
      ∃ q', objGet (validateAndCleanExtractedData dv fields) "confidence" =
          some (.num q') ∧
        DecNum.lt q' (decInt 0) = false ∧ DecNum.lt (decInt 1) q' = false) ∧
    (jsTruthyOpt (objGet fields "currency") = false →
      objGet (validateAndCleanExtractedData dv fields) "currency" = some (.str "USD")) ∧
    (∃ l, objGet (validateAndCleanExtractedData dv fields) "extractedFields" =
      some (.arr l)) := by
  unfold validateAndCleanExtractedData
  refine ⟨?_, ?_, ?_, ?_, ?_, ?_, ?_, ?_⟩
  · rw [objGet_ite_set_left_ne _ _ _ _ _ (by decide),
      objGet_ite_set_right_ne _ _ _ _ _ (by decide),
      objGet_ite_set_right_ne _ _ _ _ _ (by decide),
      objGet_ite_set_right_ne _ _ _ _ _ (by decide),
      objGet_cleanDateField_ne _ _ _ _ (by decide),
      objGet_cleanDateField_ne _ _ _ _ (by decide),
      objGet_cleanAmountField_ne _ _ _ (by decide),
      objGet_cleanAmountField_ne _ _ _ (by decide),
      objGet_cleanAmountField_self]
  · rw [objGet_ite_set_left_ne _ _ _ _ _ (by decide),
      objGet_ite_set_right_ne _ _ _ _ _ (by decide),
      objGet_ite_set_right_ne _ _ _ _ _ (by decide),
      objGet_ite_set_right_ne _ _ _ _ _ (by decide),
      objGet_cleanDateField_ne _ _ _ _ (by decide),
      objGet_cleanDateField_ne _ _ _ _ (by decide),
      objGet_cleanAmountField_ne _ _ _ (by decide),
      objGet_cleanAmountField_self,
      objGet_cleanAmountField_ne _ _ _ (by decide)]
  · rw [objGet_ite_set_left_ne _ _ _ _ _ (by decide),
      objGet_ite_set_right_ne _ _ _ _ _ (by decide),
      objGet_ite_set_right_ne _ _ _ _ _ (by decide),
      objGet_ite_set_right_ne _ _ _ _ _ (by decide),
      objGet_cleanDateField_ne _ _ _ _ (by decide),
      objGet_cleanDateField_ne _ _ _ _ (by decide),
      objGet_cleanAmountField_self,
      objGet_cleanAmountField_ne _ _ _ (by decide),
      objGet_cleanAmountField_ne _ _ _ (by decide)]
  · rw [objGet_ite_set_left_ne _ _ _ _ _ (by decide),
      objGet_ite_set_right_ne _ _ _ _ _ (by decide),
      objGet_ite_set_right_ne _ _ _ _ _ (by decide),
      objGet_ite_set_right_ne _ _ _ _ _ (by decide),
      objGet_cleanDateField_ne _ _ _ _ (by decide),
      objGet_cleanDateField_self,
      objGet_cleanAmountField_ne _ _ _ (by decide),
      objGet_cleanAmountField_ne _ _ _ (by decide),
      objGet_cleanAmountField_ne _ _ _ (by decide)]
  · rw [objGet_ite_set_left_ne _ _ _ _ _ (by decide),
      objGet_ite_set_right_ne _ _ _ _ _ (by decide),
      objGet_ite_set_right_ne _ _ _ _ _ (by decide),
      objGet_ite_set_right_ne _ _ _ _ _ (by decide),
      objGet_cleanDateField_self,
      objGet_cleanDateField_ne _ _ _ _ (by decide),
      objGet_cleanAmountField_ne _ _ _ (by decide),
      objGet_cleanAmountField_ne _ _ _ (by decide),
      objGet_cleanAmountField_ne _ _ _ (by decide)]
  · intro q hq
    rw [objGet_ite_set_left_ne _ _ _ _ _ (by decide),
      objGet_ite_set_right_ne _ _ _ _ _ (by decide)]
    refine confidence_clamp_step _ q ?_
    rw [objGet_cleanDateField_ne _ _ _ _ (by decide),
      objGet_cleanDateField_ne _ _ _ _ (by decide),
      objGet_cleanAmountField_ne _ _ _ (by decide),
      objGet_cleanAmountField_ne _ _ _ (by decide),
      objGet_cleanAmountField_ne _ _ _ (by decide)]
    exact hq
  · intro hcur
    rw [objGet_ite_set_left_ne _ _ _ _ _ (by decide)]
    refine currency_step _ ?_
    rw [objGet_ite_set_right_ne _ _ _ _ _ (by decide),
      objGet_ite_set_right_ne _ _ _ _ _ (by decide),
      objGet_cleanDateField_ne _ _ _ _ (by decide),
      objGet_cleanDateField_ne _ _ _ _ (by decide),
      objGet_cleanAmountField_ne _ _ _ (by decide),
      objGet_cleanAmountField_ne _ _ _ (by decide),
      objGet_cleanAmountField_ne _ _ _ (by decide)]
    exact hcur
  · exact extractedFields_step _

/-- C10 witness for the conditional clauses: an out-of-range confidence is
clamped and a falsy currency defaults, on a concrete record. -/
theorem c10_cleaning_witness :
    (∃ q', objGet (validateAndCleanExtractedData (fun _ => true)
        [("confidence", .num (decInt 5)), ("currency", .str "")]) "confidence" =
          some (.num q') ∧
        DecNum.lt q' (decInt 0) = false ∧ DecNum.lt (decInt 1) q' = false) ∧
    objGet (validateAndCleanExtractedData (fun _ => true)
        [("confidence", .num (decInt 5)), ("currency", .str "")]) "currency" =
      some (.str "USD") :=
  ⟨(c10_cleaning (fun _ => true)
      [("confidence", .num (decInt 5)), ("currency", .str "")]).2.2.2.2.2.1
      (decInt 5) (by decide),
   (c10_cleaning (fun _ => true)
      [("confidence", .num (decInt 5)), ("currency", .str "")]).2.2.2.2.2.2.1
      (by decide)⟩

end InvoiceManager
